import Mathlib

/-!
Shallow embedding of the `michi_matome_crawler` crawl-acquisition pipeline
(src/db.rs and src/blog.rs) and proofs about its claimed behaviour.

Modelling conventions:
* SQLite tables become association lists keyed by their primary key; row
  order models SQLite storage (rowid) order, so `INSERT` appends and
  `UPDATE` rewrites in place.
* Timestamps are integers (seconds); `Duration::days d` is `d * 86400`.
* External collaborators (the HTTP client `reqwest`, the `url` crate, the
  HTML parser `scraper`, the XML event stream of `quick_xml`, and the
  `encoding_rs`/`chardetng` libraries) are oracles supplied as parameters;
  the control flow that consumes their answers is translated line by line
  from the Rust source.
-/

namespace MichiCrawler

/-! ## Definitions -/

/-- Timestamps in seconds (models `chrono::DateTime<Utc>`). -/
abbrev Time := Int

/-- A row of the `contents` table (db.rs `insert`). -/
structure ContentRow where
  content_type : String
  title : String
  url : String
  description : Option String
  thumbnail : Option String
  published_at : Option Time
  fetched_at : String
deriving Repr, DecidableEq

/-- The `status` column of `crawl_queue`: only the values ever written. -/
inductive QStatus
  | pending
  | done
deriving Repr, DecidableEq

/-- A row of the `crawl_queue` table. -/
structure QueueEntry where
  parent_url : Option String
  status : QStatus
  discovered_at : Time
  fetched_at : Option Time
  retry_count : Nat
  next_retry_at : Option Time
deriving Repr, DecidableEq

/-- A row of the `error_sites` table. -/
structure ErrorRow where
  last_error_at : Time
  retry_after : Time
  error_message : Option String
deriving Repr, DecidableEq

/-- The whole persistent store. -/
structure Db where
  contents : List (String × ContentRow)
  queue : List (String × QueueEntry)
  errors : List (String × ErrorRow)
deriving Repr, DecidableEq

/-- The empty store, as produced by `db::init`. -/
def Db.empty : Db := ⟨[], [], []⟩

/-- Replace the value at a key in an association list, keeping row order
(models an SQL `UPDATE ... WHERE key = ?`). Absent key: no row changes. -/
def updateAssoc (l : List (String × α)) (k : String) (f : α → α) :
    List (String × α) :=
  l.map fun p => if p.1 == k then (p.1, f p.2) else p

/-- Upsert into an association list: update in place when the key exists,
append otherwise (models `INSERT ... ON CONFLICT DO UPDATE`). -/
def upsertAssoc (l : List (String × α)) (k : String) (v : α) :
    List (String × α) :=
  if (l.lookup k).isSome then updateAssoc l k (fun _ => v)
  else l ++ [(k, v)]

/-- db.rs `insert`: `INSERT OR IGNORE INTO contents`; returns whether a
row was newly inserted. -/
def dbInsert (db : Db) (id content_type title url : String)
    (description thumbnail : Option String) (published_at : Option Time)
    (fetched_at : String) : Db × Bool :=
  match db.contents.lookup id with
  | some _ => (db, false)
  | none =>
    ({ db with contents := db.contents ++
        [(id, ⟨content_type, title, url, description, thumbnail,
               published_at, fetched_at⟩)] }, true)

/-- db.rs `register_error`: upsert of `error_sites` with
`retry_after = now + retry_days days`. -/
def register_error (db : Db) (site message : String) (retry_days : Int)
    (now : Time) : Db :=
  { db with errors := (upsertAssoc db.errors site
      ⟨now, now + retry_days * 86400, some message⟩) }

/-- db.rs `mark_done`: `UPDATE crawl_queue SET status='done',
fetched_at=datetime('now') WHERE url = ?`. No-op when the URL is absent. -/
def mark_done (db : Db) (url : String) (now : Time) : Db :=
  { db with queue := (updateAssoc db.queue url
      fun e => { e with status := .done, fetched_at := some now }) }

/-- db.rs `next_pending`: pending rows whose `next_retry_at` is unset or
due, in storage order, up to `limit`. -/
def next_pending (db : Db) (limit : Nat) (now : Time) : List String :=
  ((db.queue.filter fun p =>
      p.2.status == .pending &&
      (p.2.next_retry_at.all fun t => decide (t ≤ now))).map
    Prod.fst).take limit

/-- db.rs `enqueue`: `INSERT OR IGNORE INTO crawl_queue` with status
`pending`; returns whether a row was newly inserted. -/
def enqueue (db : Db) (url : String) (parent : Option String) (now : Time) :
    Db × Bool :=
  match db.queue.lookup url with
  | some _ => (db, false)
  | none =>
    ({ db with queue := db.queue ++
        [(url, ⟨parent, .pending, now, none, 0, none⟩)] }, true)

/-- db.rs `should_skip`: true iff an `error_sites` row exists for `site`
and its `retry_after` is strictly in the future. Read-only. -/
def should_skip (db : Db) (site : String) (now : Time) : Bool :=
  match db.errors.lookup site with
  | some row => decide (now < row.retry_after)
  | none => false

/-- Whitespace class of the regex `\s` and of `str::trim` (ASCII part;
every string the crawler inspects this way is ASCII). -/
def isWsChar (c : Char) : Bool :=
  c == ' ' || c == '\t' || c == '\n' || c == '\r' ||
    c.toNat == 11 || c.toNat == 12

/-- Strip an expected literal from the front of a character list. -/
def stripLit : List Char → List Char → Option (List Char)
  | [], cs => some cs
  | _ :: _, [] => none
  | p :: ps, c :: cs => if p == c then stripLit ps cs else none

/-- Rust `str::split` by a non-empty literal pattern: scan left to right,
splitting at each non-overlapping occurrence. `acc` holds the current
segment reversed; `fuel` (initially the input length) makes the recursion
structural. -/
def splitOnFuel (pat : List Char) : Nat → List Char → List Char →
    List (List Char)
  | 0, s, acc => [acc.reverse ++ s]
  | _ + 1, [], acc => [acc.reverse]
  | fuel + 1, c :: rest, acc =>
    match stripLit pat (c :: rest) with
    | some rem => acc.reverse :: splitOnFuel pat fuel rem []
    | none => splitOnFuel pat fuel rest (c :: acc)

/-- Rust `s.split(pat)` as a list of strings. -/
def splitOnStr (s pat : String) : List String :=
  (splitOnFuel pat.data s.data.length s.data []).map String.mk

/-- Rust `str::trim` (ASCII whitespace model). -/
def trimAscii (s : String) : String :=
  String.mk ((s.data.dropWhile isWsChar).reverse.dropWhile isWsChar).reverse

/-- Rust `str::ends_with` for a literal suffix. -/
def endsWithStr (s suffix : String) : Bool :=
  suffix.data.isSuffixOf s.data

/-- `MAX_NEW_PER_SITE` from blog.rs. -/
def MAX_NEW_PER_SITE : Nat := 5

/-- Rust `str::contains` for a non-empty literal pattern. -/
def containsSub (s pat : String) : Bool :=
  (splitOnStr s pat).length ≥ 2

/-- blog.rs `is_article_link`: path contains "/20" or ends with ".html". -/
def is_article_link (href : String) : Bool :=
  containsSub href "/20" || endsWithStr href ".html"

/-- Operations of the external `url` crate, abstracted over the crate's
`Url` type `U`: `Url::parse`, `Url::domain`, `Url::join`, `to_string`. -/
structure UrlOps (U : Type) where
  parse : String → Option U
  domain : U → Option String
  join : U → String → Option U
  toStr : U → String

/-- blog.rs `same_domain`: parse both URLs; if either fails, false;
otherwise compare `domain()` results. -/
def same_domain (ops : UrlOps U) (base target : String) : Bool :=
  match ops.parse base, ops.parse target with
  | some b, some t => ops.domain b == ops.domain t
  | _, _ => false

/-- blog.rs `normalize_url`: resolve `href` against `base`; on any parse
or join failure return `href` unchanged. -/
def normalize_url (ops : UrlOps U) (base href : String) : String :=
  match ops.parse base with
  | none => href
  | some b =>
    match ops.join b href with
    | some j => ops.toStr j
    | none => href

/-- Outcome of `crawl_page`'s own `client.get(url)` request, as the model
sees it. `err` covers a transport error or a non-success HTTP status (both
make `crawl_page` return `Err`); `ok` carries the declared content type (if
any) and the `href` attributes of the page's anchors in document order
(what `scraper` would enumerate). -/
inductive PageRes
  | err
  | ok (contentType : Option String) (hrefs : List String)
deriving Repr, DecidableEq

/-- Outcome of `fetch_html` inside `crawl_article`: transport error,
non-success HTTP status, or a decoded body from which `scraper` would
extract the first `<title>` text and the meta-description content. -/
inductive ArticleRes
  | transportErr
  | httpStatus (status : Nat)
  | ok (title : Option String) (description : Option String)
deriving Repr, DecidableEq

/-- Events of the `quick_xml` reader stream consumed by `fetch_sitemap`:
`Start`/`Text`/`End`, any other event, or a parse error. End of list is
`Event::Eof`. -/
inductive XmlEvent
  | start (name : String)
  | text (s : String)
  | endTag (name : String)
  | otherEv
  | parseErr
deriving Repr, DecidableEq

/-- The external world of one `fetch_and_store` run: URL-crate operations,
the per-URL responses the network would give, the sitemap request's
outcome (`none` = request error), and the run's clock (`Utc::now()` as a
timestamp and as the RFC3339 string used for `fetched_at`). -/
structure CrawlEnv (U : Type) where
  urls : UrlOps U
  page : String → PageRes
  article : String → ArticleRes
  sitemap : Option (List XmlEvent)
  now : Time
  nowStr : String

/-- Observable side-effect trace of a run. -/
inductive Ev
  | pageFetch (url : String)
  | articleCall (url : String)
  | articleFetch (url : String)
  | insertedEv (url : String)
  | enqueuedEv (url : String) (parent : Option String)
  | markedDone (url : String)
deriving Repr, DecidableEq

/-- Error value returned by `crawl_article` (the `anyhow` error, split
into the two classes the caller can hit). -/
inductive CrawlErr
  | transport
  | status (code : Nat)
deriving Repr, DecidableEq

/-- blog.rs `crawl_article`: consult `should_skip` (unless `ignore_skip`),
fetch via `fetch_html`, on a 404 status register a 7-day backoff, on any
fetch error abandon with `Err`; on success extract title (default
"No Title") and description and `INSERT OR IGNORE` into `contents`. -/
def crawl_article (env : CrawlEnv U) (db : Db) (url fetched_at : String)
    (ignore_skip : Bool) : Db × Except CrawlErr Bool × List Ev :=
  if should_skip db url env.now && !ignore_skip then
    (db, .ok false, [.articleCall url])
  else
    match env.article url with
    | .transportErr =>
      (db, .error .transport, [.articleCall url, .articleFetch url])
    | .httpStatus code =>
      let db' := if code == 404 then register_error db url "404" 7 env.now
                 else db
      (db', .error (.status code), [.articleCall url, .articleFetch url])
    | .ok titleOpt descOpt =>
      let title := titleOpt.getD "No Title"
      let res := dbInsert db url "blog" title url descOpt none none fetched_at
      (res.1, .ok res.2,
        [.articleCall url, .articleFetch url] ++
          if res.2 then [.insertedEv url] else [])

/-- The anchor loop of blog.rs `crawl_page`: for each `href`, resolve it
with `normalize_url`, keep it only when `same_domain`, enqueue survivors
with the page as parent, and count newly enqueued rows. -/
def enqueueLinks (env : CrawlEnv U) (db : Db) (url : String) :
    List String → Db × Nat × List Ev
  | [] => (db, 0, [])
  | href :: rest =>
    let nextUrl := normalize_url env.urls url href
    if !same_domain env.urls url nextUrl then
      enqueueLinks env db url rest
    else
      let res := enqueue db nextUrl (some url) env.now
      let rec' := enqueueLinks env res.1 url rest
      (rec'.1, (if res.2 then 1 else 0) + rec'.2.1,
        (if res.2 then [Ev.enqueuedEv nextUrl (some url)] else []) ++ rec'.2.2)

/-- blog.rs `crawl_page`: fetch the page (`Err` on transport error or
non-success status); skip link extraction when a declared content type
lacks "text/html", or when no content type is declared and
`is_article_link` rejects the URL; otherwise enqueue the page's
same-domain links and return how many were newly enqueued. -/
def crawl_page (env : CrawlEnv U) (db : Db) (url : String) :
    Db × Except Unit Nat × List Ev :=
  match env.page url with
  | .err => (db, .error (), [.pageFetch url])
  | .ok ctOpt hrefs =>
    let skipExtract :=
      match ctOpt with
      | some ct => !containsSub ct "text/html"
      | none => !is_article_link url
    if skipExtract then (db, .ok 0, [.pageFetch url])
    else
      let res := enqueueLinks env db url hrefs
      (res.1, .ok res.2.1, .pageFetch url :: res.2.2)

/-- The body of the `for url in targets` loop in blog.rs `crawl_html`:
on `crawl_page` success run `crawl_article` (its error is swallowed into
`inserted = false`), add `added` to the counter when `inserted`, and mark
the queue entry done; on `crawl_page` failure only log. Returns the
counter increment. -/
def processUrl (env : CrawlEnv U) (db : Db) (url : String) :
    Db × Nat × List Ev :=
  match crawl_page env db url with
  | (db1, .ok added, evs1) =>
    let ares := crawl_article env db1 url env.nowStr false
    let inserted := match ares.2.1 with | .ok b => b | .error _ => false
    let db3 := mark_done ares.1 url env.now
    (db3, (if inserted then added else 0),
      evs1 ++ ares.2.2 ++ [.markedDone url])
  | (db1, .error _, evs1) => (db1, 0, evs1)

/-- The `for url in targets` loop of `crawl_html`, with its per-URL
`new_count >= max_new` early break. -/
def processBatch (env : CrawlEnv U) (db : Db) (new_count max_new : Nat) :
    List String → Db × Nat × List Ev
  | [] => (db, new_count, [])
  | url :: rest =>
    if new_count ≥ max_new then (db, new_count, [])
    else
      let res := processUrl env db url
      let res' := processBatch env res.1 (new_count + res.2.1) max_new rest
      (res'.1, res'.2.1, res.2.2 ++ res'.2.2)

/-- The outer `loop` of `crawl_html`: stop when the cap is reached or no
pending targets remain, else process a batch of up to 10 pending URLs.
`fuel` bounds the number of iterations (the Rust loop can run forever;
every theorem states what happens within the supplied fuel). -/
def crawlLoop (env : CrawlEnv U) (db : Db) (new_count max_new : Nat) :
    Nat → Db × List Ev
  | 0 => (db, [])
  | fuel + 1 =>
    if new_count ≥ max_new then (db, [])
    else
      let targets := next_pending db 10 env.now
      if targets.isEmpty then (db, [])
      else
        let res := processBatch env db new_count max_new targets
        let res' := crawlLoop env res.1 res.2.1 max_new fuel
        (res'.1, res.2.2 ++ res'.2)

/-- blog.rs `crawl_html`: enqueue the root (no parent), then run the
bounded loop starting from `new_count = 0`. -/
def crawl_html (env : CrawlEnv U) (db : Db) (base_url : String)
    (max_new fuel : Nat) : Db × List Ev :=
  let res := enqueue db base_url none env.now
  let evs0 := if res.2 then [Ev.enqueuedEv base_url none] else []
  let res' := crawlLoop env res.1 0 max_new fuel
  (res'.1, evs0 ++ res'.2)

/-- The event loop of blog.rs `fetch_sitemap`: collect every `Text` event
seen while inside a `<loc>` element; `Start loc` / `End loc` toggle the
flag, `Eof` (end of list) and a parse error both stop collection. -/
def collectLocs (inside : Bool) : List XmlEvent → List String
  | [] => []
  | .parseErr :: _ => []
  | .start n :: rest => collectLocs (if n == "loc" then true else inside) rest
  | .text s :: rest =>
    if inside then s :: collectLocs inside rest else collectLocs inside rest
  | .endTag n :: rest => collectLocs (if n == "loc" then false else inside) rest
  | .otherEv :: rest => collectLocs inside rest

/-- blog.rs `fetch_sitemap`: `Err` when the request fails or when the
collected URL list is empty; otherwise the collected list. -/
def fetch_sitemap (env : CrawlEnv U) : Except Unit (List String) :=
  match env.sitemap with
  | none => .error ()
  | some events =>
    let urls := collectLocs false events
    if urls.isEmpty then .error () else .ok urls

/-- The sitemap-mode loop of blog.rs `fetch_and_store`: acquire each URL
in order, count insertions, break once the counter reaches
`MAX_NEW_PER_SITE`. -/
def sitemapLoop (env : CrawlEnv U) (db : Db) (counter : Nat) :
    List String → Db × Nat × List Ev
  | [] => (db, counter, [])
  | url :: rest =>
    let ares := crawl_article env db url env.nowStr false
    let inserted := match ares.2.1 with | .ok b => b | .error _ => false
    let counter' := if inserted then counter + 1 else counter
    if counter' ≥ MAX_NEW_PER_SITE then (ares.1, counter', ares.2.2)
    else
      let res := sitemapLoop env ares.1 counter' rest
      (res.1, res.2.1, ares.2.2 ++ res.2.2)

/-- blog.rs `fetch_and_store`: sitemap first; on success run the sitemap
loop, otherwise fall back to `crawl_html` with `MAX_NEW_PER_SITE`. -/
def fetch_and_store (env : CrawlEnv U) (db : Db) (base_url : String)
    (fuel : Nat) : Db × List Ev :=
  match fetch_sitemap env with
  | .ok urls =>
    let res := sitemapLoop env db 0 urls
    (res.1, res.2.2)
  | .error _ => crawl_html env db base_url MAX_NEW_PER_SITE fuel

/-- URLs of `articleCall` events, in order. -/
def articleCalls (evs : List Ev) : List String :=
  evs.filterMap fun e => match e with | .articleCall u => some u | _ => none

/-- URLs of `articleFetch` events, in order. -/
def articleFetches (evs : List Ev) : List String :=
  evs.filterMap fun e => match e with | .articleFetch u => some u | _ => none

/-- URLs of `insertedEv` events, in order. -/
def insertedUrls (evs : List Ev) : List String :=
  evs.filterMap fun e => match e with | .insertedEv u => some u | _ => none

/-- URLs of `pageFetch` events, in order. -/
def pageFetches (evs : List Ev) : List String :=
  evs.filterMap fun e => match e with | .pageFetch u => some u | _ => none

/-- Enqueue events (newly created queue rows), in order. -/
def enqueueEvents (evs : List Ev) : List (String × Option String) :=
  evs.filterMap fun e =>
    match e with | .enqueuedEv u p => some (u, p) | _ => none

/-- The external encoding libraries, abstracted: `Encoding::for_label`
(known labels to encoding ids), a total lossy `Encoding::decode`,
`String::from_utf8_lossy`, and the `chardetng` detector's `guess` (which
always yields some encoding). -/
structure EncEnv where
  for_label : String → Option Nat
  decode : Nat → List Nat → String
  utf8Lossy : List Nat → String
  detect : List Nat → Nat

/-- Character class `[A-Za-z0-9_-]` of the charset regex. -/
def isLabelChar (c : Char) : Bool :=
  (c.isUpper || c.isLower) || c.isDigit || c == '_' || c == '-'

/-- `\s*`: drop leading whitespace. -/
def dropWs : List Char → List Char
  | [] => []
  | c :: rest => if isWsChar c then dropWs rest else c :: rest

/-- Try to match the regex `charset\s*=\s*["']?([A-Za-z0-9_-]+)` at the
head of `cs`, returning the captured label. The pattern is deterministic:
after the literal and `\s*=\s*`, an optional quote character, then at
least one label character (a quote is not a label character, so greedy
matching is exact). -/
def matchCharsetAt (cs : List Char) : Option String :=
  match stripLit "charset".data cs with
  | none => none
  | some r1 =>
    match dropWs r1 with
    | '=' :: r2 =>
      let r3 := dropWs r2
      let r4 := match r3 with
        | c :: r => if c.toNat == 34 || c.toNat == 39 then r else r3
        | [] => r3
      let label := r4.takeWhile isLabelChar
      if label.isEmpty then none else some (String.mk label)
    | _ => none

/-- Leftmost match of the charset regex over a character list
(`Regex::captures` returns the leftmost match). -/
def findCharset : List Char → Option String
  | [] => none
  | c :: rest => (matchCharsetAt (c :: rest)).orElse fun _ => findCharset rest

/-- Step 1 of `fetch_html`: Rust
`content_type_str.split("charset=").nth(1)` followed by `trim`. -/
def headerLabel (ct : String) : Option String :=
  ((splitOnStr ct "charset=").get? 1).map trimAscii

/-- Steps 2-3 of `fetch_html`: look for a charset label in the lossily
decoded first 4096 bytes; if it names a known encoding decode the full
buffer with it, else decode the full buffer with the detector's guess. -/
def metaOrDetect (env : EncEnv) (bytes : List Nat) : String :=
  let asciiHead := env.utf8Lossy (bytes.take 4096)
  match findCharset asciiHead.data with
  | some label =>
    match env.for_label label with
    | some enc => env.decode enc bytes
    | none => env.decode (env.detect bytes) bytes
  | none => env.decode (env.detect bytes) bytes

/-- The decode chain of blog.rs `fetch_html` on a successful response:
header charset first, then meta charset in the first 4096 bytes, then
statistical detection. Always returns a string. -/
def fetch_html_decode (env : EncEnv) (contentType : Option String)
    (bytes : List Nat) : String :=
  match contentType with
  | some ct =>
    match headerLabel ct with
    | some label =>
      match env.for_label label with
      | some enc => env.decode enc bytes
      | none => metaOrDetect env bytes
    | none => metaOrDetect env bytes
  | none => metaOrDetect env bytes

/-- The encoding chosen by the header branch, when any. -/
def headerEnc (env : EncEnv) (contentType : Option String) : Option Nat :=
  (contentType.bind headerLabel).bind env.for_label

/-- The encoding chosen by the meta-tag branch, when any; its label
search reads only the first 4096 bytes. -/
def metaEnc (env : EncEnv) (bytes : List Nat) : Option Nat :=
  (findCharset (env.utf8Lossy (bytes.take 4096)).data).bind env.for_label

/-- Null URL operations for environments whose URL handling is
irrelevant to the statement being tested. -/
def nullUrlOps : UrlOps Unit :=
  { parse := fun _ => none, domain := fun _ => none,
    join := fun _ _ => none, toStr := fun _ => "" }

/-- Concrete environment whose article fetch always yields HTTP 404. -/
def c3env404 : CrawlEnv Unit :=
  { urls := nullUrlOps, page := fun _ => .err,
    article := fun _ => .httpStatus 404,
    sitemap := none, now := 0, nowStr := "t0" }

/-- Concrete environment whose article fetch always yields HTTP 500. -/
def c3env500 : CrawlEnv Unit :=
  { c3env404 with article := fun _ => .httpStatus 500 }

/-- Concrete environment whose article fetch always fails in transport. -/
def c3envT : CrawlEnv Unit :=
  { c3env404 with article := fun _ => .transportErr }

/-- Every write operation the repository ever performs on the store
(db.rs `enqueue`, `mark_done`, `register_error`, `insert`). -/
inductive DbOp
  | enq (url : String) (parent : Option String) (now : Time)
  | mdone (url : String) (now : Time)
  | regErr (site msg : String) (days : Int) (now : Time)
  | insC (id content_type title url : String)
      (description thumbnail : Option String)
      (published_at : Option Time) (fetched_at : String)

/-- Apply one write operation. -/
def applyOp (db : Db) : DbOp → Db
  | .enq u p n => (enqueue db u p n).1
  | .mdone u n => mark_done db u n
  | .regErr s m d n => register_error db s m d n
  | .insC id ct t u d th p f => (dbInsert db id ct t u d th p f).1

/-- Apply a sequence of write operations. -/
def applyOps (db : Db) (ops : List DbOp) : Db := ops.foldl applyOp db

/-- The `status` column of a queue row, if the row exists. -/
def qstatus (db : Db) (url : String) : Option QStatus :=
  (db.queue.lookup url).map QueueEntry.status

/-- Number of steps in an operation sequence at which the queue row for
`url` transitions into status `done`. -/
def flipCount (db : Db) (url : String) : List DbOp → Nat
  | [] => 0
  | op :: ops =>
    (if qstatus db url ≠ some .done ∧
        qstatus (applyOp db op) url = some .done
      then 1 else 0) + flipCount (applyOp db op) url ops

/-- Store used by the C7 witness: one queue row already `done`. -/
def c7db : Db :=
  ⟨[], [("a", ⟨none, .done, 0, some 1, 0, none⟩)], []⟩

/-- Sitemap stream for the C9 witness: two `<loc>` URLs, then a parse
error, then a third `<loc>` that is lost to truncation. -/
def c9stream : List XmlEvent :=
  [.start "loc", .text "https://x/a", .endTag "loc",
   .start "loc", .text "https://x/b", .endTag "loc",
   .parseErr, .start "loc", .text "lost", .endTag "loc"]

/-- Environment whose sitemap request yields `c9stream`. -/
def c9env : CrawlEnv Unit :=
  { c3env404 with sitemap := some c9stream }

/-- Enqueue an already-resolved, already-filtered list of URLs (the
reference formulation the anchor loop of `crawl_page` is compared
against). -/
def enqueueAll (db : Db) (parent : String) (now : Time) :
    List String → Db × Nat × List Ev
  | [] => (db, 0, [])
  | u :: rest =>
    let res := enqueue db u (some parent) now
    let r' := enqueueAll res.1 parent now rest
    (r'.1, (if res.2 then 1 else 0) + r'.2.1,
      (if res.2 then [Ev.enqueuedEv u (some parent)] else []) ++ r'.2.2)

/-- Minimal concrete URL type instantiating the `url` crate for concrete
runs: scheme, host, path. -/
structure SimpleUrl where
  scheme : String
  host : String
  path : String
deriving Repr, DecidableEq

/-- Parse `scheme://host/path`; fail on anything without a scheme or
host (relative references fail, like `Url::parse` on them). -/
def parseSimple (s : String) : Option SimpleUrl :=
  match splitOnStr s "://" with
  | [sch, rest] =>
    if sch.data.isEmpty then none
    else
      match splitOnStr rest "/" with
      | [] => none
      | host :: pathParts =>
        if host.data.isEmpty then none
        else some ⟨sch, host,
          String.mk (pathParts.foldl (fun a p => a ++ '/' :: p.data) [])⟩
  | _ => none

/-- The `url` crate operations instantiated at `SimpleUrl`. -/
def simpleOps : UrlOps SimpleUrl :=
  { parse := parseSimple
    domain := fun u => some u.host
    join := fun b h =>
      if (splitOnStr h "://").length ≥ 2 then parseSimple h
      else some { b with path := h }
    toStr := fun u =>
      String.mk (u.scheme.data ++ "://".data ++ u.host.data ++ u.path.data) }

/-- Environment for the C8 example page: `https://x.com/p` links to a
same-domain URL and a foreign-domain URL. -/
def c8env : CrawlEnv SimpleUrl :=
  { urls := simpleOps
    page := fun u =>
      if u == "https://x.com/p" then
        .ok (some "text/html") ["https://x.com/q", "https://y.com/r"]
      else .err
    article := fun _ => .ok none none
    sitemap := none, now := 0, nowStr := "t0" }

/-- Flat URL operations: every string parses, all URLs share one domain,
a join yields the href itself. -/
def flatUrlOps : UrlOps String :=
  { parse := some, domain := fun _ => some "d",
    join := fun _ h => some h, toStr := id }

/-- Environment whose page fetches always fail (transport error or bad
status). -/
def failPageEnv : CrawlEnv String :=
  { urls := flatUrlOps
    page := fun _ => .err
    article := fun _ => .ok none none
    sitemap := none, now := 0, nowStr := "t0" }

/-- Environment whose page fetches succeed with no links but whose
article fetches always fail in transport. -/
def okPageFailArticleEnv : CrawlEnv String :=
  { urls := flatUrlOps
    page := fun _ => .ok (some "text/html") []
    article := fun _ => .transportErr
    sitemap := none, now := 0, nowStr := "t0" }

/-- A store holding one pending queue row for "r". -/
def c2db : Db := ⟨[], [("r", ⟨none, .pending, 0, none, 0, none⟩)], []⟩

/-- Environment for the C1 failing input: the root page "r" links to
seven fresh article pages a1..a7, each of which has no further links;
every article fetch succeeds with no backoff in force, so all seven
articles are distinct, new and acquirable. -/
def bfsCapEnv : CrawlEnv String :=
  { urls := flatUrlOps
    page := fun u =>
      if u == "r" then
        .ok (some "text/html") ["a1", "a2", "a3", "a4", "a5", "a6", "a7"]
      else .ok (some "text/html") []
    article := fun _ => .ok none none
    sitemap := none, now := 0, nowStr := "t0" }

/-- Store for the C1 failing input: the root article is already stored,
so its own insertion reports false (a duplicate). -/
def bfsCapDb : Db :=
  ⟨[("r", ⟨"blog", "t", "r", none, none, none, "t0"⟩)], [], []⟩

/-- What the sitemap-mode loop's output must satisfy: its article-call
trace is a prefix of the URL list (in order), it performs no BFS-only
effects, and it covers the whole list whenever the final counter stayed
below the cap. -/
def SitemapTraceOK (urls : List String)
    (out : Db × Nat × List Ev) : Prop :=
  (∃ rest, urls = articleCalls out.2.2 ++ rest) ∧
  pageFetches out.2.2 = [] ∧
  enqueueEvents out.2.2 = [] ∧
  (out.2.1 < MAX_NEW_PER_SITE → articleCalls out.2.2 = urls)

/-- Sitemap stream with six `<loc>` URLs. -/
def c4stream : List XmlEvent :=
  [.start "loc", .text "u1", .endTag "loc",
   .start "loc", .text "u2", .endTag "loc",
   .start "loc", .text "u3", .endTag "loc",
   .start "loc", .text "u4", .endTag "loc",
   .start "loc", .text "u5", .endTag "loc",
   .start "loc", .text "u6", .endTag "loc"]

/-- Environment with six discoverable, fresh, insertable sitemap URLs. -/
def sitemapSixEnv : CrawlEnv String :=
  { urls := flatUrlOps
    page := fun _ => .err
    article := fun _ => .ok none none
    sitemap := some c4stream
    now := 0, nowStr := "t0" }

/-- Environment whose sitemap request fails. -/
def sitemapFailEnv : CrawlEnv String :=
  { urls := flatUrlOps
    page := fun _ => .err
    article := fun _ => .ok none none
    sitemap := none
    now := 0, nowStr := "t0" }

/-- Environment for the C10 witness: every page fetch succeeds with a
non-HTML content type and no links; every article fetch succeeds. -/
def c10env : CrawlEnv String :=
  { urls := flatUrlOps
    page := fun _ => .ok (some "application/json") []
    article := fun _ => .ok none none
    sitemap := none, now := 0, nowStr := "t0" }

/-! ## Theorems -/

theorem lookup_append_some {α : Type} {l l' : List (String × α)} {k : String}
    {v : α} (h : l.lookup k = some v) : (l ++ l').lookup k = some v := by
  induction l with
  | nil => simp [List.lookup] at h
  | cons p rest ih =>
    obtain ⟨pk, pv⟩ := p
    rw [List.lookup_cons] at h
    rw [List.cons_append, List.lookup_cons]
    by_cases hk : k = pk
    · simpa [hk] using h
    · simp only [beq_eq_false_iff_ne.mpr hk] at h ⊢
      exact ih h

theorem lookup_append_none {α : Type} {l : List (String × α)} {k : String}
    (l' : List (String × α)) (h : l.lookup k = none) :
    (l ++ l').lookup k = l'.lookup k := by
  induction l with
  | nil => simp
  | cons p rest ih =>
    obtain ⟨pk, pv⟩ := p
    rw [List.lookup_cons] at h
    rw [List.cons_append, List.lookup_cons]
    by_cases hk : k = pk
    · simp [hk] at h
    · simp only [beq_eq_false_iff_ne.mpr hk] at h ⊢
      exact ih h

theorem updateAssoc_cons {α : Type} (pk : String) (pv : α)
    (rest : List (String × α)) (k : String) (f : α → α) :
    updateAssoc ((pk, pv) :: rest) k f =
      (if pk == k then (pk, f pv) else (pk, pv)) :: updateAssoc rest k f := rfl

theorem lookup_updateAssoc {α : Type} (l : List (String × α)) (k k' : String)
    (f : α → α) :
    (updateAssoc l k f).lookup k' =
      if k' == k then (l.lookup k').map f else l.lookup k' := by
  induction l with
  | nil => cases hk : (k' == k) <;> simp [updateAssoc, List.lookup, hk]
  | cons p rest ih =>
    obtain ⟨pk, pv⟩ := p
    rw [updateAssoc_cons]
    by_cases h1 : pk = k
    · subst h1
      by_cases h2 : k' = pk
      · subst h2
        simp [List.lookup_cons]
      · simp [List.lookup_cons, beq_eq_false_iff_ne.mpr h2, ih]
    · by_cases h2 : k' = pk
      · subst h2
        simp [List.lookup_cons, beq_eq_false_iff_ne.mpr h1, ih]
      · simp [List.lookup_cons, beq_eq_false_iff_ne.mpr h1,
          beq_eq_false_iff_ne.mpr h2, ih]

theorem lookup_upsertAssoc_self {α : Type} (l : List (String × α))
    (k : String) (v : α) : (upsertAssoc l k v).lookup k = some v := by
  unfold upsertAssoc
  cases h : l.lookup k with
  | some w =>
    simp only [h, Option.isSome_some, if_true]
    rw [lookup_updateAssoc]
    simp [h]
  | none =>
    simp only [h, Option.isSome_none, Bool.false_eq_true, if_false]
    rw [lookup_append_none _ h]
    simp [List.lookup]

theorem lookup_upsertAssoc_other {α : Type} (l : List (String × α))
    (k k' : String) (v : α) (h : (k' == k) = false) :
    (upsertAssoc l k v).lookup k' = l.lookup k' := by
  unfold upsertAssoc
  cases hl : l.lookup k with
  | some w =>
    simp only [hl, Option.isSome_some, if_true]
    rw [lookup_updateAssoc]
    simp [h]
  | none =>
    simp only [hl, Option.isSome_none, Bool.false_eq_true, if_false]
    cases hk : l.lookup k' with
    | some w => exact lookup_append_some hk
    | none =>
      rw [lookup_append_none _ hk]
      simp [List.lookup, h]

/-- Claim C6: `should_skip key` is true iff an error record exists for
`key` whose `retry_after` is strictly in the future at call time; it is
false when no record exists or the window has elapsed, and a lapsed record
is not deleted (the model's `should_skip` is a pure read; the record
written by `register_error key msg 7` persists and is looked up unchanged
at every later time). Immediately after `register_error key msg 7` at time
`now`, `should_skip` at time `t` is exactly `t < now + 7 days`: true at
`t = now`, false once the 7-day mark has passed. -/
theorem C6_backoff_window (db : Db) (key msg : String) (now t : Time) :
    (should_skip db key now = true ↔
      ∃ r, db.errors.lookup key = some r ∧ now < r.retry_after) ∧
    ((register_error db key msg 7 now).errors.lookup key =
      some ⟨now, now + 7 * 86400, some msg⟩) ∧
    (should_skip (register_error db key msg 7 now) key t =
      decide (t < now + 7 * 86400)) := by
  have hlook : (register_error db key msg 7 now).errors.lookup key =
      some ⟨now, now + 7 * 86400, some msg⟩ := by
    unfold register_error
    exact lookup_upsertAssoc_self _ _ _
  refine ⟨?_, hlook, ?_⟩
  · unfold should_skip
    cases h : db.errors.lookup key with
    | none => simp
    | some r => simp
  · unfold should_skip
    rw [hlook]

/-- Claim C3: an article acquisition whose fetch returns a non-success
HTTP status is abandoned and reported as failure (an `Err` the caller
treats as not-inserted; no content row is written); a 7-day backoff row
for the URL is registered iff the status is 404; any other non-success
status leaves the error store untouched, and a transport error abandons
the acquisition with no state change at all. Stated for any call in which
the backoff gate does not skip the fetch. -/
theorem C3_status_error_backoff {U : Type} (env : CrawlEnv U) (db : Db)
    (url fa : String) (hns : should_skip db url env.now = false) :
    (∀ code, env.article url = .httpStatus code →
      crawl_article env db url fa false =
        ((if code == 404 then register_error db url "404" 7 env.now else db),
          .error (.status code), [.articleCall url, .articleFetch url]) ∧
      (crawl_article env db url fa false).1.contents = db.contents ∧
      (code = 404 →
        (crawl_article env db url fa false).1.errors.lookup url =
          some ⟨env.now, env.now + 7 * 86400, some "404"⟩) ∧
      (code ≠ 404 →
        (crawl_article env db url fa false).1.errors = db.errors)) ∧
    (env.article url = .transportErr →
      crawl_article env db url fa false =
        (db, .error .transport, [.articleCall url, .articleFetch url])) := by
  constructor
  · intro code hc
    refine ⟨?_, ?_, ?_, ?_⟩
    · simp [crawl_article, hns, hc]
    · by_cases h4 : code = 404
      · simp [crawl_article, hns, hc, h4, register_error]
      · simp [crawl_article, hns, hc, beq_eq_false_iff_ne.mpr h4]
    · intro h4
      subst h4
      simp only [crawl_article, hns, Bool.false_and, Bool.false_eq_true,
        if_false, hc, beq_self_eq_true, if_true]
      unfold register_error
      exact lookup_upsertAssoc_self _ _ _
    · intro h4
      simp [crawl_article, hns, hc, beq_eq_false_iff_ne.mpr h4]
  · intro ht
    simp [crawl_article, hns, ht]

/-- Witness for C3: at concrete inputs, a 404 registers the 7-day backoff
row, a 500 leaves the error store untouched, and a transport error leaves
the store unchanged and returns the transport error. -/
theorem C3_witness :
    (crawl_article c3env404 Db.empty "u" "t0" false).1.errors.lookup "u" =
      some ⟨0, 0 + 7 * 86400, some "404"⟩ ∧
    (crawl_article c3env500 Db.empty "u" "t0" false).1.errors =
      Db.empty.errors ∧
    crawl_article c3envT Db.empty "u" "t0" false =
      (Db.empty, .error .transport, [.articleCall "u", .articleFetch "u"]) :=
  ⟨((C3_status_error_backoff c3env404 Db.empty "u" "t0" rfl).1 404 rfl).2.2.1
      rfl,
   ((C3_status_error_backoff c3env500 Db.empty "u" "t0" rfl).1 500 rfl).2.2.2
      (by decide),
   (C3_status_error_backoff c3envT Db.empty "u" "t0" rfl).2 rfl⟩

theorem qstatus_done_applyOp (db : Db) (op : DbOp) (url : String)
    (h : qstatus db url = some .done) :
    qstatus (applyOp db op) url = some .done := by
  obtain ⟨e, he, hs⟩ : ∃ e, db.queue.lookup url = some e ∧
      e.status = .done := by
    unfold qstatus at h
    cases hu : db.queue.lookup url with
    | none => simp [hu] at h
    | some e => exact ⟨e, rfl, by simpa [hu] using h⟩
  cases op with
  | enq u p n =>
    unfold applyOp enqueue
    cases hl : db.queue.lookup u with
    | some e2 => simp [qstatus, hl, he, hs]
    | none => simp [qstatus, hl, lookup_append_some he, hs]
  | mdone u n =>
    unfold applyOp mark_done qstatus
    simp only
    rw [lookup_updateAssoc]
    by_cases hu : url = u
    · simp [beq_iff_eq.mpr hu, he]
    · simp [beq_eq_false_iff_ne.mpr hu, he, hs]
  | regErr s m d n =>
    simp [applyOp, register_error, qstatus, he, hs]
  | insC id ct t u d th p f =>
    unfold applyOp dbInsert
    cases hl : db.contents.lookup id <;> simp [qstatus, hl, he, hs]

theorem qstatus_done_applyOps (db : Db) (ops : List DbOp) (url : String)
    (h : qstatus db url = some .done) :
    qstatus (applyOps db ops) url = some .done := by
  induction ops generalizing db with
  | nil => exact h
  | cons op rest ih => exact ih _ (qstatus_done_applyOp db op url h)

theorem flipCount_zero_of_done (db : Db) (url : String) (ops : List DbOp)
    (h : qstatus db url = some .done) : flipCount db url ops = 0 := by
  induction ops generalizing db with
  | nil => rfl
  | cons op rest ih =>
    unfold flipCount
    rw [if_neg (by simp [h])]
    simp [ih _ (qstatus_done_applyOp db op url h)]

theorem flipCount_le_one (db : Db) (url : String) (ops : List DbOp) :
    flipCount db url ops ≤ 1 := by
  induction ops generalizing db with
  | nil => simp [flipCount]
  | cons op rest ih =>
    unfold flipCount
    by_cases hc : qstatus db url ≠ some .done ∧
        qstatus (applyOp db op) url = some .done
    · rw [if_pos hc, flipCount_zero_of_done _ _ _ hc.2]
    · rw [if_neg hc]
      simpa using ih (applyOp db op)

theorem enqueue_of_lookup_none (db : Db) (url : String)
    (parent : Option String) (now : Time) (h : db.queue.lookup url = none) :
    enqueue db url parent now =
      ({ db with queue := db.queue ++
          [(url, ⟨parent, .pending, now, none, 0, none⟩)] }, true) := by
  unfold enqueue
  rw [h]

theorem enqueue_of_lookup_some (db : Db) (url : String)
    (parent : Option String) (now : Time) (e : QueueEntry)
    (h : db.queue.lookup url = some e) :
    enqueue db url parent now = (db, false) := by
  unfold enqueue
  rw [h]

theorem countP_key_eq_zero {α : Type} {l : List (String × α)} {k : String}
    (h : l.lookup k = none) : l.countP (fun q => q.1 == k) = 0 := by
  induction l with
  | nil => rfl
  | cons p rest ih =>
    obtain ⟨pk, pv⟩ := p
    rw [List.lookup_cons] at h
    by_cases hk : k = pk
    · simp [hk] at h
    · simp only [beq_eq_false_iff_ne.mpr hk, Bool.false_eq_true, if_false] at h
      rw [List.countP_cons]
      simp [beq_eq_false_iff_ne.mpr (Ne.symm hk), ih h]

/-- Claim C7: a second `enqueue` of the same URL leaves the store
completely unchanged (hence exactly one queue row with unmodified status,
parent and timestamps) and reports not-newly-inserted; starting from a
store without the URL, two enqueues leave exactly one row for it, holding
the first call's parent, `pending` status and discovery time; a queue
entry that is `done` stays `done` under every sequence of the
repository's store operations (never reverted to pending, never
re-enqueued), and a row transitions into `done` at most once over any
operation sequence. -/
theorem C7_enqueue_idempotent (db : Db) (url : String)
    (parent parent' : Option String) (now now' : Time) (e : QueueEntry)
    (ops : List DbOp) :
    (db.queue.lookup url = some e → enqueue db url parent now = (db, false)) ∧
    (db.queue.lookup url = none →
      (enqueue (enqueue db url parent now).1 url parent' now' =
        ((enqueue db url parent now).1, false)) ∧
      ((enqueue (enqueue db url parent now).1 url parent' now').1).queue.countP
          (fun q => q.1 == url) = 1 ∧
      ((enqueue db url parent now).1).queue.lookup url =
        some ⟨parent, .pending, now, none, 0, none⟩) ∧
    (qstatus db url = some .done →
      qstatus (applyOps db ops) url = some .done) ∧
    flipCount db url ops ≤ 1 := by
  refine ⟨?_, ?_, qstatus_done_applyOps db ops url, flipCount_le_one db url ops⟩
  · intro h
    exact enqueue_of_lookup_some db url parent now e h
  · intro h
    have h1 := enqueue_of_lookup_none db url parent now h
    have hfst : ((enqueue db url parent now).1).queue.lookup url =
        some ⟨parent, .pending, now, none, 0, none⟩ := by
      rw [h1]
      show (db.queue ++
          [(url, (⟨parent, .pending, now, none, 0, none⟩ : QueueEntry))]).lookup
          url =
        some ⟨parent, .pending, now, none, 0, none⟩
      rw [lookup_append_none _ h]
      simp [List.lookup]
    have hsnd : (enqueue (enqueue db url parent now).1 url parent' now') =
        ((enqueue db url parent now).1, false) :=
      enqueue_of_lookup_some _ url parent' now' _ hfst
    refine ⟨hsnd, ?_, hfst⟩
    rw [hsnd, h1]
    show (db.queue ++
        [(url, (⟨parent, .pending, now, none, 0, none⟩ : QueueEntry))]).countP
        (fun q => q.1 == url) = 1
    rw [List.countP_append, countP_key_eq_zero h]
    simp

/-- Witness for C7: starting from a concrete store that lacks URL "b" and
holds a `done` row for "a", a second enqueue of "b" is a report-false
no-op leaving one "b" row, and marking "a" done again (plus an enqueue of
"a") keeps "a" `done` with at most one transition counted. -/
theorem C7_witness :
    (Db.empty.queue.lookup "b" = none ∧
      enqueue (enqueue Db.empty "b" none 5).1 "b" (some "p") 6 =
        ((enqueue Db.empty "b" none 5).1, false) ∧
      ((enqueue (enqueue Db.empty "b" none 5).1 "b" (some "p") 6).1).queue.countP
        (fun q => q.1 == "b") = 1) ∧
    (qstatus c7db "a" = some .done ∧
      qstatus (applyOps c7db [.mdone "a" 9, .enq "a" none 9]) "a" =
        some .done ∧
      flipCount c7db "a" [.mdone "a" 9, .enq "a" none 9] ≤ 1) :=
  ⟨⟨rfl,
    ((C7_enqueue_idempotent Db.empty "b" none (some "p") 5 6
        ⟨none, .pending, 0, none, 0, none⟩ []).2.1 rfl).1,
    ((C7_enqueue_idempotent Db.empty "b" none (some "p") 5 6
        ⟨none, .pending, 0, none, 0, none⟩ []).2.1 rfl).2.1⟩,
   ⟨rfl,
    (C7_enqueue_idempotent c7db "a" none none 0 0
        ⟨none, .done, 0, some 1, 0, none⟩
        [.mdone "a" 9, .enq "a" none 9]).2.2.1 rfl,
    (C7_enqueue_idempotent c7db "a" none none 0 0
        ⟨none, .done, 0, some 1, 0, none⟩
        [.mdone "a" 9, .enq "a" none 9]).2.2.2⟩⟩

theorem collectLocs_truncates (inside : Bool) (pre post : List XmlEvent) :
    collectLocs inside (pre ++ XmlEvent.parseErr :: post) =
      collectLocs inside pre := by
  induction pre generalizing inside with
  | nil => simp [collectLocs]
  | cons ev rest ih =>
    cases ev <;> simp [collectLocs, ih]

/-- Claim C9: sitemap discovery fails exactly when the request errors or
the collected `<loc>` text list is empty; otherwise it succeeds with the
collected texts in document order; a parse error truncates collection at
that point (the prefix before the error is kept, everything after is
dropped), and consecutive `<loc>` elements are collected in order without
deduplication (two equal texts yield two entries). -/
theorem C9_sitemap_discovery {U : Type} (env : CrawlEnv U) :
    (fetch_sitemap env = .error () ↔
      env.sitemap = none ∨
        ∃ evs, env.sitemap = some evs ∧ collectLocs false evs = []) ∧
    (∀ evs, env.sitemap = some evs → collectLocs false evs ≠ [] →
      fetch_sitemap env = .ok (collectLocs false evs)) ∧
    (∀ inside pre post,
      collectLocs inside (pre ++ XmlEvent.parseErr :: post) =
        collectLocs inside pre) ∧
    (∀ s1 s2, collectLocs false
        [.start "loc", .text s1, .endTag "loc",
         .start "loc", .text s2, .endTag "loc"] = [s1, s2]) := by
  refine ⟨?_, ?_, fun i p q => collectLocs_truncates i p q, ?_⟩
  · cases hs : env.sitemap with
    | none => simp [fetch_sitemap, hs]
    | some evs =>
      cases hc : collectLocs false evs with
      | nil => simp [fetch_sitemap, hs, hc]
      | cons a as => simp [fetch_sitemap, hs, hc]
  · intro evs hse hne
    cases hc : collectLocs false evs with
    | nil => exact absurd hc hne
    | cons a as => simp [fetch_sitemap, hse, hc]
  · intro s1 s2
    simp [collectLocs]

/-- Witness for C9: on a concrete stream with a mid-document parse error,
discovery succeeds with exactly the two URLs before the error. -/
theorem C9_witness :
    fetch_sitemap c9env = .ok ["https://x/a", "https://x/b"] :=
  (C9_sitemap_discovery c9env).2.1 c9stream rfl (by decide)

theorem metaOrDetect_eq (env : EncEnv) (bytes : List Nat) :
    metaOrDetect env bytes =
      env.decode ((metaEnc env bytes).getD (env.detect bytes)) bytes := by
  simp only [metaOrDetect, metaEnc]
  cases hf : findCharset (env.utf8Lossy (bytes.take 4096)).data with
  | none => simp [hf]
  | some label => cases he : env.for_label label <;> simp [hf, he]

theorem fetch_html_decode_header (env : EncEnv) (ct : Option String)
    (bytes : List Nat) :
    fetch_html_decode env ct bytes =
      (match headerEnc env ct with
        | some e => env.decode e bytes
        | none => metaOrDetect env bytes) := by
  cases ct with
  | none => rfl
  | some c =>
    simp only [fetch_html_decode, headerEnc, Option.some_bind]
    cases hl : headerLabel c with
    | none => simp [hl]
    | some lab => cases he : env.for_label lab <;> simp [hl, he]

/-- Claim C5: decoding follows a strict first-match-wins priority: a known
charset label in the content-type header, else a known label captured by
the charset regular expression in (only) the first 4096 bytes, else the
statistical detector's guess; in every case the chosen encoding decodes
the full byte buffer and a string is produced (the modelled decode
operations are total, mirroring lossy decoding). The second conjunct
states the 4096-byte window exactly: the meta-tag branch's choice depends
only on the first 4096 bytes. -/
theorem C5_decode_priority (env : EncEnv) (ct : Option String)
    (bytes : List Nat) :
    (fetch_html_decode env ct bytes =
      env.decode
        (((headerEnc env ct).orElse fun _ => metaEnc env bytes).getD
          (env.detect bytes)) bytes) ∧
    metaEnc env bytes = metaEnc env (bytes.take 4096) := by
  constructor
  · rw [fetch_html_decode_header]
    cases hh : headerEnc env ct with
    | some e => simp [Option.orElse, hh]
    | none =>
      rw [metaOrDetect_eq]
      simp [Option.orElse]
  · simp [metaEnc, List.take_take]

theorem enqueueLinks_eq_filter {U : Type} (env : CrawlEnv U) (db : Db)
    (url : String) (hrefs : List String) :
    enqueueLinks env db url hrefs =
      enqueueAll db url env.now
        ((hrefs.map (normalize_url env.urls url)).filter
          (same_domain env.urls url)) := by
  induction hrefs generalizing db with
  | nil => rfl
  | cons href rest ih =>
    rw [List.map_cons, List.filter_cons]
    cases hd : same_domain env.urls url (normalize_url env.urls url href) with
    | false =>
      rw [if_neg (by simp [hd])]
      show enqueueLinks env db url (href :: rest) = _
      simp only [enqueueLinks, hd, Bool.not_false, if_true]
      exact ih db
    | true =>
      rw [if_pos (by simp [hd])]
      show enqueueLinks env db url (href :: rest) = _
      simp only [enqueueLinks, enqueueAll, hd, Bool.not_true, Bool.false_eq_true,
        if_false]
      rw [ih]

theorem same_domain_parse_fail {U : Type} (ops : UrlOps U)
    (base target : String)
    (h : ops.parse base = none ∨ ops.parse target = none) :
    same_domain ops base target = false := by
  cases hb : ops.parse base <;> cases ht : ops.parse target <;>
    simp_all [same_domain]

/-- Claim C8: the anchor loop enqueues exactly the hrefs that, once
resolved against the page URL, pass the same-domain test (in document
order, with the page as parent); a parse failure of either URL makes
`same_domain` false, so the link is rejected; and on the concrete page
`https://x.com/p` with anchors `https://x.com/q` and `https://y.com/r`,
only `https://x.com/q` ends up in the queue. -/
theorem C8_domain_filter {U : Type} (env : CrawlEnv U) (db : Db)
    (url : String) (hrefs : List String) :
    (enqueueLinks env db url hrefs =
      enqueueAll db url env.now
        ((hrefs.map (normalize_url env.urls url)).filter
          (same_domain env.urls url))) ∧
    (∀ base target,
      env.urls.parse base = none ∨ env.urls.parse target = none →
      same_domain env.urls base target = false) ∧
    (((crawl_page c8env Db.empty "https://x.com/p").1).queue.map Prod.fst =
      ["https://x.com/q"]) := by
  refine ⟨enqueueLinks_eq_filter env db url hrefs,
    fun b t h => same_domain_parse_fail env.urls b t h, ?_⟩
  decide

/-- Witness for C8: an unparseable page URL is treated as not-same-domain
and rejected. -/
theorem C8_witness :
    same_domain simpleOps "not-a-url" "https://x.com/q" = false :=
  (C8_domain_filter c8env Db.empty "u" ([] : List String)).2.1
    "not-a-url" "https://x.com/q" (Or.inl rfl)

theorem enqueue_lookup_self_of_none (db : Db) (u : String)
    (p : Option String) (n : Time) (h : db.queue.lookup u = none) :
    ((enqueue db u p n).1).queue.lookup u =
      some ⟨p, .pending, n, none, 0, none⟩ := by
  rw [enqueue_of_lookup_none db u p n h]
  show (db.queue ++
      [(u, (⟨p, .pending, n, none, 0, none⟩ : QueueEntry))]).lookup u =
    some ⟨p, .pending, n, none, 0, none⟩
  rw [lookup_append_none _ h]
  simp [List.lookup]

theorem enqueue_lookup_preserved (db : Db) (u : String) (p : Option String)
    (n : Time) (k : String) (e : QueueEntry)
    (h : db.queue.lookup k = some e) :
    ((enqueue db u p n).1).queue.lookup k = some e := by
  cases hl : db.queue.lookup u with
  | none =>
    rw [enqueue_of_lookup_none db u p n hl]
    exact lookup_append_some h
  | some e2 =>
    rw [enqueue_of_lookup_some db u p n e2 hl]
    exact h

theorem enqueue_contents_errors (db : Db) (u : String) (p : Option String)
    (n : Time) :
    ((enqueue db u p n).1).contents = db.contents ∧
    ((enqueue db u p n).1).errors = db.errors := by
  cases hl : db.queue.lookup u with
  | none => rw [enqueue_of_lookup_none db u p n hl]; exact ⟨rfl, rfl⟩
  | some e2 => rw [enqueue_of_lookup_some db u p n e2 hl]; exact ⟨rfl, rfl⟩

theorem enqueueLinks_lookup_preserved {U : Type} (env : CrawlEnv U)
    (db : Db) (url : String) (hrefs : List String) (k : String)
    (e : QueueEntry) (h : db.queue.lookup k = some e) :
    ((enqueueLinks env db url hrefs).1).queue.lookup k = some e := by
  induction hrefs generalizing db with
  | nil => exact h
  | cons href rest ih =>
    unfold enqueueLinks
    dsimp only
    split
    · exact ih db h
    · exact ih _ (enqueue_lookup_preserved db _ (some url) env.now k e h)

theorem enqueueLinks_contents_errors {U : Type} (env : CrawlEnv U)
    (db : Db) (url : String) (hrefs : List String) :
    ((enqueueLinks env db url hrefs).1).contents = db.contents ∧
    ((enqueueLinks env db url hrefs).1).errors = db.errors := by
  induction hrefs generalizing db with
  | nil => exact ⟨rfl, rfl⟩
  | cons href rest ih =>
    unfold enqueueLinks
    dsimp only
    split
    · exact ih db
    · have h1 := enqueue_contents_errors db
        (normalize_url env.urls url href) (some url) env.now
      have h2 := ih ((enqueue db (normalize_url env.urls url href)
        (some url) env.now).1)
      exact ⟨h2.1.trans h1.1, h2.2.trans h1.2⟩

theorem crawl_page_lookup_preserved {U : Type} (env : CrawlEnv U) (db : Db)
    (url k : String) (e : QueueEntry) (h : db.queue.lookup k = some e) :
    ((crawl_page env db url).1).queue.lookup k = some e := by
  unfold crawl_page
  cases hp : env.page url with
  | err => exact h
  | ok ct hrefs =>
    simp only
    split
    · exact h
    · exact enqueueLinks_lookup_preserved env db url hrefs k e h

theorem crawl_page_contents_errors {U : Type} (env : CrawlEnv U) (db : Db)
    (url : String) :
    ((crawl_page env db url).1).contents = db.contents ∧
    ((crawl_page env db url).1).errors = db.errors := by
  unfold crawl_page
  cases hp : env.page url with
  | err => exact ⟨rfl, rfl⟩
  | ok ct hrefs =>
    simp only
    split
    · exact ⟨rfl, rfl⟩
    · exact enqueueLinks_contents_errors env db url hrefs

theorem crawl_article_queue {U : Type} (env : CrawlEnv U) (db : Db)
    (url fa : String) (ig : Bool) :
    ((crawl_article env db url fa ig).1).queue = db.queue := by
  unfold crawl_article
  split
  · rfl
  · cases ha : env.article url with
    | transportErr => rfl
    | httpStatus code =>
      simp only
      split
      · rfl
      · rfl
    | ok t d =>
      simp only
      unfold dbInsert
      cases hl : db.contents.lookup url <;> simp

theorem mark_done_lookup (db : Db) (url : String) (now : Time)
    (e : QueueEntry) (h : db.queue.lookup url = some e) :
    (mark_done db url now).queue.lookup url =
      some { e with status := .done, fetched_at := some now } := by
  unfold mark_done
  show ((updateAssoc db.queue url
      fun e => { e with status := .done, fetched_at := some now })).lookup url = _
  rw [lookup_updateAssoc]
  simp [h]

theorem should_skip_congr (db db' : Db) (u : String) (n : Time)
    (h : db'.errors = db.errors) : should_skip db' u n = should_skip db u n := by
  unfold should_skip
  rw [h]

/-- Counterexample to C2 as stated: within a single BFS run (one call of
`crawl_html`, fuel 3), a URL whose page fetch fails is fetched three
times — the outer loop re-selects it from `next_pending` because it stays
`pending` — so "never retried within or across runs" is false; the entry
does remain pending and never marked done. -/
theorem C2_counterexample :
    pageFetches (crawl_html failPageEnv Db.empty "r" MAX_NEW_PER_SITE 3).2 =
      ["r", "r", "r"] ∧
    ((crawl_html failPageEnv Db.empty "r" MAX_NEW_PER_SITE 3).1).queue.lookup
      "r" = some ⟨none, .pending, 0, none, 0, none⟩ := by decide

/-- Claim C2 (amended): a crawl-queue entry is marked done exactly when
its page fetch succeeds. When the fetch fails, the store is completely
unchanged (the entry stays `pending` with its row intact, hence remains
selectable by `next_pending`, which re-selects it in later iterations of
the same run and in later runs — it is retried, not abandoned). When the
page fetch succeeds, the entry is marked `done`, whatever the outcome of
the subsequent article acquisition (the statement quantifies over every
article oracle, including failing ones). -/
theorem C2_amended {U : Type} (env : CrawlEnv U) (db : Db) (url : String)
    (e : QueueEntry) (hq : db.queue.lookup url = some e) :
    (env.page url = .err →
      processUrl env db url = (db, 0, [.pageFetch url])) ∧
    (∀ ct hrefs, env.page url = .ok ct hrefs →
      ∃ e', ((processUrl env db url).1).queue.lookup url = some e' ∧
        e'.status = .done) := by
  constructor
  · intro hp
    unfold processUrl crawl_page
    rw [hp]
  · intro ct hrefs hp
    have hq1 : ((crawl_page env db url).1).queue.lookup url = some e :=
      crawl_page_lookup_preserved env db url url e hq
    have hres : ∃ n, (crawl_page env db url).2.1 = Except.ok n := by
      simp only [crawl_page, hp]
      split
      · exact ⟨_, rfl⟩
      · exact ⟨_, rfl⟩
    rcases hcp : crawl_page env db url with ⟨db1, res, evs1⟩
    rw [hcp] at hq1 hres
    obtain ⟨n, rfl⟩ : ∃ n, res = Except.ok n := hres
    have hq2 : ((crawl_article env db1 url env.nowStr false).1).queue.lookup
        url = some e := by
      rw [crawl_article_queue]
      exact hq1
    refine ⟨{ e with status := .done, fetched_at := some env.now }, ?_, rfl⟩
    unfold processUrl
    rw [hcp]
    exact mark_done_lookup _ url env.now e hq2

/-- Witness for C2 (amended): at a concrete store with a pending row for
"r", a failing page fetch leaves everything unchanged, while a page fetch
that succeeds marks "r" done even though the article fetch fails in
transport. -/
theorem C2_witness :
    processUrl failPageEnv c2db "r" = (c2db, 0, [.pageFetch "r"]) ∧
    (∃ e', ((processUrl okPageFailArticleEnv c2db "r").1).queue.lookup "r" =
      some e' ∧ e'.status = .done) :=
  ⟨(C2_amended failPageEnv c2db "r" ⟨none, .pending, 0, none, 0, none⟩
      rfl).1 rfl,
   (C2_amended okPageFailArticleEnv c2db "r" ⟨none, .pending, 0, none, 0, none⟩
      rfl).2 (some "text/html") [] rfl⟩

/-- Claim C1, evaluated at the failing input: in BFS mode the counter is
advanced by `new_count += added` (newly *enqueued links*, gated on an
insertion having happened) instead of by the number of newly inserted
articles, so the run inserts all seven fresh articles — the claimed cap
of five newly inserted articles per site per run is exceeded, and the
scan does not stop at the fifth insertion. -/
theorem C1_bfs_cap_violation :
    insertedUrls (crawl_html bfsCapEnv bfsCapDb "r" MAX_NEW_PER_SITE 10).2 =
      ["a1", "a2", "a3", "a4", "a5", "a6", "a7"] ∧
    ((crawl_html bfsCapEnv bfsCapDb "r" MAX_NEW_PER_SITE 10).1).contents.length
      = 8 ∧
    MAX_NEW_PER_SITE = 5 := by decide

theorem crawl_article_calls {U : Type} (env : CrawlEnv U) (db : Db)
    (url fa : String) (ig : Bool) :
    articleCalls ((crawl_article env db url fa ig).2.2) = [url] := by
  unfold crawl_article
  split
  · rfl
  · cases ha : env.article url with
    | transportErr => rfl
    | httpStatus code => rfl
    | ok t d =>
      dsimp only
      split <;> rfl

theorem crawl_article_no_bfs_events {U : Type} (env : CrawlEnv U) (db : Db)
    (url fa : String) (ig : Bool) :
    pageFetches ((crawl_article env db url fa ig).2.2) = [] ∧
    enqueueEvents ((crawl_article env db url fa ig).2.2) = [] := by
  unfold crawl_article
  split
  · exact ⟨rfl, rfl⟩
  · cases ha : env.article url with
    | transportErr => exact ⟨rfl, rfl⟩
    | httpStatus code => exact ⟨rfl, rfl⟩
    | ok t d =>
      dsimp only
      split <;> exact ⟨rfl, rfl⟩

theorem articleCalls_append (a b : List Ev) :
    articleCalls (a ++ b) = articleCalls a ++ articleCalls b := by
  unfold articleCalls
  exact List.filterMap_append a b _

theorem pageFetches_append (a b : List Ev) :
    pageFetches (a ++ b) = pageFetches a ++ pageFetches b := by
  unfold pageFetches
  exact List.filterMap_append a b _

theorem enqueueEvents_append (a b : List Ev) :
    enqueueEvents (a ++ b) = enqueueEvents a ++ enqueueEvents b := by
  unfold enqueueEvents
  exact List.filterMap_append a b _

theorem insertedUrls_append (a b : List Ev) :
    insertedUrls (a ++ b) = insertedUrls a ++ insertedUrls b := by
  unfold insertedUrls
  exact List.filterMap_append a b _

theorem sitemapLoop_branch {U : Type} (env : CrawlEnv U) (db1 : Db)
    (evs : List Ev) (url : String) (rest : List String) (c2 : Nat)
    (hcalls : articleCalls evs = [url])
    (hpf : pageFetches evs = []) (hen : enqueueEvents evs = [])
    (ih : ∀ (db : Db) (c : Nat),
      SitemapTraceOK rest (sitemapLoop env db c rest)) :
    SitemapTraceOK (url :: rest)
      (if c2 ≥ MAX_NEW_PER_SITE then (db1, c2, evs)
       else ((sitemapLoop env db1 c2 rest).1,
             (sitemapLoop env db1 c2 rest).2.1,
             evs ++ (sitemapLoop env db1 c2 rest).2.2)) := by
  by_cases hge : c2 ≥ MAX_NEW_PER_SITE
  · rw [if_pos hge]
    refine ⟨⟨rest, ?_⟩, hpf, hen, ?_⟩
    · show url :: rest = articleCalls evs ++ rest
      rw [hcalls]
      rfl
    · intro hlt
      dsimp only at hlt
      exact absurd hlt (by omega)
  · rw [if_neg hge]
    obtain ⟨⟨r', hr⟩, hpf2, hen2, hall⟩ := ih db1 c2
    refine ⟨⟨r', ?_⟩, ?_, ?_, ?_⟩
    · show url :: rest =
        articleCalls (evs ++ (sitemapLoop env db1 c2 rest).2.2) ++ r'
      rw [articleCalls_append, hcalls]
      simp only [List.cons_append, List.nil_append]
      exact congrArg (List.cons url) hr
    · show pageFetches (evs ++ (sitemapLoop env db1 c2 rest).2.2) = []
      rw [pageFetches_append, hpf, hpf2]
      rfl
    · show enqueueEvents (evs ++ (sitemapLoop env db1 c2 rest).2.2) = []
      rw [enqueueEvents_append, hen, hen2]
      rfl
    · intro hlt
      dsimp only at hlt
      show articleCalls (evs ++ (sitemapLoop env db1 c2 rest).2.2) = url :: rest
      rw [articleCalls_append, hcalls, hall hlt]
      rfl

theorem sitemapLoop_trace {U : Type} (env : CrawlEnv U) (urls : List String) :
    ∀ (db : Db) (c : Nat),
      SitemapTraceOK urls (sitemapLoop env db c urls) := by
  induction urls with
  | nil => exact fun db c => ⟨⟨[], rfl⟩, rfl, rfl, fun _ => rfl⟩
  | cons url rest ih =>
    intro db c
    rcases ha : crawl_article env db url env.nowStr false with ⟨db1, res, evs⟩
    have hcalls : articleCalls evs = [url] := by
      have h0 := crawl_article_calls env db url env.nowStr false
      rw [ha] at h0
      exact h0
    have hnob : pageFetches evs = [] ∧ enqueueEvents evs = [] := by
      have h0 := crawl_article_no_bfs_events env db url env.nowStr false
      rw [ha] at h0
      exact h0
    cases res with
    | error e =>
      have heq : sitemapLoop env db c (url :: rest) =
          (if c ≥ MAX_NEW_PER_SITE then (db1, c, evs)
           else ((sitemapLoop env db1 c rest).1,
                 (sitemapLoop env db1 c rest).2.1,
                 evs ++ (sitemapLoop env db1 c rest).2.2)) := by
        rw [sitemapLoop.eq_def]
        dsimp only
        rw [ha]
        rfl
      rw [heq]
      exact sitemapLoop_branch env db1 evs url rest c hcalls hnob.1 hnob.2 ih
    | ok b =>
      cases b with
      | false =>
        have heq : sitemapLoop env db c (url :: rest) =
            (if c ≥ MAX_NEW_PER_SITE then (db1, c, evs)
             else ((sitemapLoop env db1 c rest).1,
                   (sitemapLoop env db1 c rest).2.1,
                   evs ++ (sitemapLoop env db1 c rest).2.2)) := by
          rw [sitemapLoop.eq_def]
          dsimp only
          rw [ha]
          rfl
        rw [heq]
        exact sitemapLoop_branch env db1 evs url rest c hcalls hnob.1 hnob.2 ih
      | true =>
        have heq : sitemapLoop env db c (url :: rest) =
            (if c + 1 ≥ MAX_NEW_PER_SITE then (db1, c + 1, evs)
             else ((sitemapLoop env db1 (c + 1) rest).1,
                   (sitemapLoop env db1 (c + 1) rest).2.1,
                   evs ++ (sitemapLoop env db1 (c + 1) rest).2.2)) := by
          rw [sitemapLoop.eq_def]
          dsimp only
          rw [ha]
          rfl
        rw [heq]
        exact sitemapLoop_branch env db1 evs url rest (c + 1) hcalls
          hnob.1 hnob.2 ih

/-- Counterexample to C4 as stated: sitemap discovery yields six URLs,
all new and acquirable, yet the article acquirer is invoked with only the
first five — the per-run insertion cap of 5 stops the loop — so "invoked
with exactly those URLs" is false on this input. -/
theorem C4_counterexample :
    fetch_sitemap sitemapSixEnv = .ok ["u1", "u2", "u3", "u4", "u5", "u6"] ∧
    articleCalls (fetch_and_store sitemapSixEnv Db.empty "b" 0).2 =
      ["u1", "u2", "u3", "u4", "u5"] :=
  ⟨rfl, by decide⟩

/-- Claim C4 (amended): when sitemap discovery yields a URL list, the run
is exactly the sitemap loop over that list: the acquirer is invoked with
a prefix of those URLs in document order — the whole list whenever the
insertion counter stays below the cap of 5 — and BFS mode is never
entered (no page fetch, no enqueue). When sitemap discovery fails, the
run is exactly `crawl_html`, which seeds the frontier by enqueueing the
base URL with no parent (the first trace event when the URL is new, and
a pending row) before processing pending entries. -/
theorem C4_amended {U : Type} (env : CrawlEnv U) (db : Db) (base : String)
    (fuel : Nat) :
    (∀ urls, fetch_sitemap env = .ok urls →
      (fetch_and_store env db base fuel).2 =
        (sitemapLoop env db 0 urls).2.2 ∧
      (∃ rest, urls =
        articleCalls (fetch_and_store env db base fuel).2 ++ rest) ∧
      ((sitemapLoop env db 0 urls).2.1 < MAX_NEW_PER_SITE →
        articleCalls (fetch_and_store env db base fuel).2 = urls) ∧
      pageFetches (fetch_and_store env db base fuel).2 = [] ∧
      enqueueEvents (fetch_and_store env db base fuel).2 = []) ∧
    (fetch_sitemap env = .error () →
      fetch_and_store env db base fuel =
        crawl_html env db base MAX_NEW_PER_SITE fuel ∧
      (db.queue.lookup base = none →
        (∃ evs, (crawl_html env db base MAX_NEW_PER_SITE fuel).2 =
          Ev.enqueuedEv base none :: evs) ∧
        ((enqueue db base none env.now).1).queue.lookup base =
          some ⟨none, .pending, env.now, none, 0, none⟩)) := by
  constructor
  · intro urls hok
    have htr : (fetch_and_store env db base fuel).2 =
        (sitemapLoop env db 0 urls).2.2 := by
      unfold fetch_and_store
      rw [hok]
    obtain ⟨hpfx, hpf, hen, hall⟩ := sitemapLoop_trace env urls db 0
    rw [htr]
    exact ⟨rfl, hpfx, hall, hpf, hen⟩
  · intro herr
    have h1 : fetch_and_store env db base fuel =
        crawl_html env db base MAX_NEW_PER_SITE fuel := by
      unfold fetch_and_store
      rw [herr]
    refine ⟨h1, fun hb =>
      ⟨?_, enqueue_lookup_self_of_none db base none env.now hb⟩⟩
    unfold crawl_html
    rw [enqueue_of_lookup_none db base none env.now hb]
    exact ⟨_, rfl⟩

/-- Witness for C4 (amended): on the six-URL sitemap the invoked URLs
form a prefix and no page is fetched; on a failed sitemap the run is the
BFS crawl whose first event enqueues the base URL with no parent. -/
theorem C4_witness :
    (∃ rest, ["u1", "u2", "u3", "u4", "u5", "u6"] =
      articleCalls (fetch_and_store sitemapSixEnv Db.empty "b" 0).2 ++ rest) ∧
    pageFetches (fetch_and_store sitemapSixEnv Db.empty "b" 0).2 = [] ∧
    fetch_and_store sitemapFailEnv Db.empty "b" 1 =
      crawl_html sitemapFailEnv Db.empty "b" MAX_NEW_PER_SITE 1 ∧
    (∃ evs, (crawl_html sitemapFailEnv Db.empty "b" MAX_NEW_PER_SITE 1).2 =
      Ev.enqueuedEv "b" none :: evs) :=
  ⟨((C4_amended sitemapSixEnv Db.empty "b" 0).1
      ["u1", "u2", "u3", "u4", "u5", "u6"] rfl).2.1,
   ((C4_amended sitemapSixEnv Db.empty "b" 0).1
      ["u1", "u2", "u3", "u4", "u5", "u6"] rfl).2.2.2.1,
   ((C4_amended sitemapFailEnv Db.empty "b" 1).2 rfl).1,
   (((C4_amended sitemapFailEnv Db.empty "b" 1).2 rfl).2 rfl).1⟩

theorem crawl_article_mem_call {U : Type} (env : CrawlEnv U) (db : Db)
    (url fa : String) (ig : Bool) :
    Ev.articleCall url ∈ (crawl_article env db url fa ig).2.2 := by
  unfold crawl_article
  split
  · simp
  · cases ha : env.article url with
    | transportErr => simp
    | httpStatus code => simp
    | ok t d => simp

theorem dbInsert_lookup_self (db : Db) (id ct t u : String)
    (d th : Option String) (p : Option Time) (f : String) :
    ((dbInsert db id ct t u d th p f).1).contents.lookup id ≠ none := by
  unfold dbInsert
  cases hl : db.contents.lookup id with
  | some r => simp [hl]
  | none =>
    simp only [hl]
    show (db.contents ++
        [(id, (⟨ct, t, u, d, th, p, f⟩ : ContentRow))]).lookup id ≠ none
    rw [lookup_append_none _ hl]
    simp [List.lookup]

/-- Claim C10: in BFS mode, every dequeued URL whose page fetch succeeds
— whatever the declared content type, including non-HTML responses for
which link extraction is skipped, and regardless of `is_article_link` —
is fed to article acquisition; and when the backoff gate does not skip
and the article fetch succeeds, the URL is present in the content store
afterwards. Nothing restricts content insertion to article-like pages. -/
theorem C10_bfs_inserts_everything {U : Type} (env : CrawlEnv U) (db : Db)
    (url : String) (ct : Option String) (hrefs : List String)
    (hp : env.page url = .ok ct hrefs) :
    Ev.articleCall url ∈ (processUrl env db url).2.2 ∧
    (∀ t d, env.article url = .ok t d →
      should_skip db url env.now = false →
      ((processUrl env db url).1).contents.lookup url ≠ none) := by
  have hres : ∃ n, (crawl_page env db url).2.1 = Except.ok n := by
    simp only [crawl_page, hp]
    split
    · exact ⟨_, rfl⟩
    · exact ⟨_, rfl⟩
  have herr : ((crawl_page env db url).1).errors = db.errors :=
    (crawl_page_contents_errors env db url).2
  rcases hcp : crawl_page env db url with ⟨db1, res, evs1⟩
  rw [hcp] at hres herr
  obtain ⟨n, rfl⟩ : ∃ n, res = Except.ok n := hres
  constructor
  · unfold processUrl
    rw [hcp]
    dsimp only
    have hm := crawl_article_mem_call env db1 url env.nowStr false
    simp [List.mem_append, hm]
  · intro t d ha hns
    have hns1 : should_skip db1 url env.now = false :=
      (should_skip_congr db db1 url env.now herr).trans hns
    unfold processUrl
    rw [hcp]
    dsimp only
    have hca : ((crawl_article env db1 url env.nowStr false).1).contents.lookup
        url ≠ none := by
      simp only [crawl_article, hns1, Bool.false_and, Bool.false_eq_true,
        if_false, ha]
      exact dbInsert_lookup_self db1 url "blog" (t.getD "No Title") url d
        none none env.nowStr
    exact hca

/-- Witness for C10: the URL `https://s.example` is not article-like and
its response is non-HTML, yet after processing it is fed to acquisition
and lands in the content store. -/
theorem C10_witness :
    is_article_link "https://s.example" = false ∧
    Ev.articleCall "https://s.example" ∈
      (processUrl c10env Db.empty "https://s.example").2.2 ∧
    ((processUrl c10env Db.empty "https://s.example").1).contents.lookup
      "https://s.example" ≠ none :=
  ⟨by decide,
   (C10_bfs_inserts_everything c10env Db.empty "https://s.example"
      (some "application/json") [] rfl).1,
   (C10_bfs_inserts_everything c10env Db.empty "https://s.example"
      (some "application/json") [] rfl).2 none none rfl rfl⟩

end MichiCrawler
